import Mathlib

/-!
Shallow embedding of the augmentation core of `avocado` (`plasticc.py`,
class `PlasticcAugmentor`), together with theorems settling the claims
of the spec about it.

Conventions of the embedding:
* Python floats are modelled as real numbers (`ℝ`).
* Every call to the pseudo-random generator is modelled as an explicit
  input: a standard-normal draw becomes a real parameter `g` (so that
  `np.random.normal(mu, sigma)` is `mu + sigma * g`), a uniform draw on
  `[0, 1)` becomes a real parameter `u`, `np.random.choice(n)` becomes a
  natural number taken modulo `n`, and `np.random.choice([-1, 1])` becomes
  a boolean.  Per-row / per-attempt draws become functions out of `ℕ`.
* The unbounded `while True` rejection loop of `_simulate_photoz` is
  modelled with explicit fuel: the result `running` means the loop has not
  returned within the given number of attempts.
* A raised Python exception is modelled as an explicit `error` result:
  `np.random.choice(0)` on an empty reference table raises `ValueError`,
  and when a log-uniform bound is non-positive, `np.log` yields
  `-inf`/NaN (a warning only, not an error) and `np.random.uniform` then
  raises `OverflowError: Range exceeds valid bounds` on the resulting
  non-finite range.
* `pandas.DataFrame` objects are mutable and aliasable, so the two
  operations whose claims are about mutation (`.copy()` in
  `_simulate_light_curve_uncertainties`, the in-place column write in
  `_simulate_detection`) are additionally embedded at the level of an
  explicit store mapping table references to contents.
-/

/-- One row of an observation table: band identifier, flux, flux error,
and the `detected` flag (`none` until the detection simulator sets it). -/
structure Obs where
  band : String
  flux : ℝ
  flux_error : ℝ
  detected : Option Bool

/-- The metadata fields of an astronomical object that the augmentation
pipeline reads or writes.  `augment_brightness` and `distmod` are `Option`
because the Python dict only acquires them on the branch that sets them. -/
structure Metadata where
  galactic : Bool
  ddf : Bool
  redshift : ℝ
  host_specz : ℝ
  host_photoz : ℝ
  host_photoz_error : ℝ
  mwebv : ℝ
  distmod : Option ℝ
  augment_brightness : Option ℝ

/-- Result of `_simulate_photoz`: a returned `(photoz, photoz_error)`
pair, a raised exception, or `running` when the rejection loop has not
returned within the modelled number of attempts. -/
inductive PzResult where
  | ok : ℝ → ℝ → PzResult
  | error : String → PzResult
  | running : PzResult

/-- One reference-table row of `_load_photoz_reference`:
`(host_specz, host_photoz, host_photoz_error)`. -/
abbrev PzRow := ℝ × ℝ × ℝ

/-- The body of the `while True` loop of `_simulate_photoz`, with fuel.
`draws k` supplies the randomness of attempt `k`: the row index drawn by
`np.random.choice(len(photoz_reference))` (taken modulo the length), the
sign drawn by `np.random.choice([-1, 1])` (`true` for `+1`), and the
standard-normal draw behind `np.random.normal(1, 0.05)`. -/
noncomputable def simulate_photoz_go (tbl : List PzRow) (redshift : ℝ)
    (draws : ℕ → ℕ × Bool × ℝ) : ℕ → ℕ → PzResult
  | 0, _ => .running
  | fuel + 1, k =>
    let row := tbl.getD ((draws k).1 % tbl.length) (0, 0, 0)
    let new_diff := (row.2.1 - row.1) * (if (draws k).2.1 then 1 else -1)
    let new_photoz := redshift + new_diff
    if new_photoz < 0 then
      simulate_photoz_go tbl redshift draws fuel (k + 1)
    else
      .ok new_photoz (row.2.2 * (1 + 0.05 * (draws k).2.2))

/-- Embedding of `_simulate_photoz`.  On an empty reference table
`np.random.choice(0)` raises `ValueError` on the first attempt. -/
noncomputable def simulate_photoz (tbl : List PzRow) (redshift : ℝ)
    (draws : ℕ → ℕ × Bool × ℝ) (fuel : ℕ) : PzResult :=
  if tbl.isEmpty then .error "ValueError: a must be greater than 0"
  else simulate_photoz_go tbl redshift draws fuel 0

lemma simulate_photoz_go_ok {tbl : List PzRow} {redshift : ℝ}
    {draws : ℕ → ℕ × Bool × ℝ} {p e : ℝ} :
    ∀ {fuel k : ℕ}, simulate_photoz_go tbl redshift draws fuel k = .ok p e →
      0 ≤ p := by
  intro fuel
  induction fuel with
  | zero => intro k h; simp [simulate_photoz_go] at h
  | succ n ih =>
    intro k h
    rw [simulate_photoz_go] at h
    by_cases hneg :
        redshift + ((tbl.getD ((draws k).1 % tbl.length) (0, 0, 0)).2.1 -
          (tbl.getD ((draws k).1 % tbl.length) (0, 0, 0)).1) *
          (if (draws k).2.1 then 1 else -1) < 0
    · simp only [hneg, if_true] at h
      exact ih h
    · simp only [hneg, if_false] at h
      cases h
      linarith [not_lt.mp hneg]

/-- C4: whenever the photo-z rejection loop returns, the accepted photo-z
is nonnegative, because the loop keeps retrying while the candidate is
negative. -/
theorem simulate_photoz_nonneg (tbl : List PzRow) (redshift : ℝ)
    (draws : ℕ → ℕ × Bool × ℝ) (fuel : ℕ) (p e : ℝ)
    (hz : 0 < redshift) (htbl : tbl ≠ [])
    (h : simulate_photoz tbl redshift draws fuel = .ok p e) : 0 ≤ p := by
  rw [simulate_photoz, if_neg (by simpa [List.isEmpty_iff] using htbl)] at h
  exact simulate_photoz_go_ok h

/-- C4 witness: a concrete run that accepts on the first attempt returns a
nonnegative photo-z. -/
theorem simulate_photoz_nonneg_instance :
    simulate_photoz [(1, 1, 1/10)] 1 (fun _ => (0, true, 0)) 1 =
      .ok 1 (1/10) ∧ (0 : ℝ) ≤ 1 := by
  have h : simulate_photoz [(1, 1, 1/10)] 1 (fun _ => (0, true, 0)) 1 =
      .ok 1 (1/10) := by
    rw [simulate_photoz, if_neg (by simp), simulate_photoz_go]
    norm_num
  exact ⟨h, simulate_photoz_nonneg [(1, 1, 1/10)] 1 (fun _ => (0, true, 0))
    1 1 (1/10) one_pos (by simp) h⟩

/-- A reference table is pathological for a given true redshift when no
row can produce a nonnegative candidate with either sign of the residual:
`redshift + |photoz - specz| < 0` for every row. -/
def pathological (tbl : List PzRow) (redshift : ℝ) : Prop :=
  ∀ row ∈ tbl, redshift + |row.2.1 - row.1| < 0

lemma simulate_photoz_go_pathological {tbl : List PzRow} {redshift : ℝ}
    (htbl : tbl ≠ []) (hpath : pathological tbl redshift)
    (draws : ℕ → ℕ × Bool × ℝ) :
    ∀ fuel k, simulate_photoz_go tbl redshift draws fuel k = .running := by
  intro fuel
  induction fuel with
  | zero => intro k; rfl
  | succ n ih =>
    intro k
    rw [simulate_photoz_go]
    have hlen : (draws k).1 % tbl.length < tbl.length :=
      Nat.mod_lt _ (List.length_pos.mpr htbl)
    set row := tbl.getD ((draws k).1 % tbl.length) (0, 0, 0) with hrow
    have hmem : row ∈ tbl := by
      rw [hrow, List.getD_eq_getElem?_getD, List.getElem?_eq_getElem hlen]
      exact List.getElem_mem hlen
    have hbound := hpath row hmem
    have hneg : redshift + (row.2.1 - row.1) *
        (if (draws k).2.1 then 1 else -1) < 0 := by
      have h1 : row.2.1 - row.1 ≤ |row.2.1 - row.1| := le_abs_self _
      have h2 : -(row.2.1 - row.1) ≤ |row.2.1 - row.1| := neg_le_abs _
      cases hsb : (draws k).2.1 with
      | false => rw [if_neg (by simp)]; linarith
      | true => rw [if_pos rfl]; linarith
    rw [if_pos hneg]
    exact ih (k + 1)

/-- C2 amended: the rejection loop of `_simulate_photoz` is unbounded.  On
a non-empty reference table that can never satisfy the non-negativity
constraint, no number of attempts makes the call return or raise: the
loop runs forever with no diagnostic. -/
theorem simulate_photoz_pathological_loops_forever (tbl : List PzRow)
    (redshift : ℝ) (htbl : tbl ≠ []) (hpath : pathological tbl redshift)
    (draws : ℕ → ℕ × Bool × ℝ) (fuel : ℕ) :
    simulate_photoz tbl redshift draws fuel = .running := by
  rw [simulate_photoz, if_neg (by simpa [List.isEmpty_iff] using htbl)]
  exact simulate_photoz_go_pathological htbl hpath draws fuel 0

/-- C2 witness: a concrete pathological table (all residuals zero) with a
negative true redshift keeps the loop running after five attempts. -/
theorem simulate_photoz_pathological_loops_forever_instance :
    simulate_photoz [(1, 1, 1/10)] (-1) (fun _ => (0, true, 0)) 5 =
      .running :=
  simulate_photoz_pathological_loops_forever [(1, 1, 1/10)] (-1) (by simp)
    (by intro row hrow; simp at hrow; rw [hrow]; norm_num)
    (fun _ => (0, true, 0)) 5

/-- C2 counterexample: the claim that the loop fails after a bounded
number of attempts with a clear diagnostic is false on the code — there
is no attempt count at which the pathological call raises an error. -/
theorem simulate_photoz_no_bounded_failure_example :
    ¬ ∃ (fuel : ℕ) (msg : String),
      simulate_photoz [(1, 1, 1/10)] (-1) (fun _ => (0, true, 0)) fuel =
        .error msg := by
  rintro ⟨fuel, msg, h⟩
  have hrun : simulate_photoz [(1, 1, 1/10)] (-1) (fun _ => (0, true, 0))
      fuel = .running := by
    rw [simulate_photoz, if_neg (by simp)]
    exact simulate_photoz_go_pathological (by simp)
      (by intro row hrow; simp at hrow; rw [hrow]; norm_num)
      (fun _ => (0, true, 0)) fuel 0
  rw [hrun] at h
  exact PzResult.noConfusion h

/-- Result of `_augment_redshift` / `_augment_metadata`: the updated
metadata, a raised exception with its message, or `running` when the
photo-z rejection loop has not returned within the modelled number of
attempts. -/
inductive AugResult where
  | ok : Metadata → AugResult
  | error : String → AugResult
  | running : AugResult

/-- The new-redshift draw of `_augment_redshift` (extragalactic branch):
`min_redshift = 0.95 * z0`, `max_redshift = min(5 * z0, 1.5 * (1 + z0) - 1)`,
then `exp(uniform(log min_redshift, log max_redshift))` with the uniform
draw written as `lo + u * (hi - lo)` for a parameter `u ∈ [0, 1)`.  When a
bound is non-positive, `np.log` yields `-inf`/NaN (a warning only) and
`np.random.uniform` then raises on the non-finite range it is given: this
is the generic numpy range complaint, not a rejection the augmentation
code itself performs. -/
noncomputable def aug_redshift_draw (template_redshift u : ℝ) :
    Except String ℝ :=
  let min_redshift := 0.95 * template_redshift
  let max_redshift :=
    min (5 * template_redshift) (1.5 * (1 + template_redshift) - 1)
  if 0 < min_redshift ∧ 0 < max_redshift then
    .ok (Real.exp (Real.log min_redshift +
      u * (Real.log max_redshift - Real.log min_redshift)))
  else .error "OverflowError: Range exceeds valid bounds"

/-- Embedding of `_augment_redshift`.  `gBright` is the standard-normal
draw behind `np.random.normal(0.5, 0.5)`; `u` drives the log-uniform
redshift draw; `tbl`, `draws`, `fuel` feed the photo-z simulation; and
`distmod` is the external `self.cosmology.distmod`. -/
noncomputable def augment_redshift (md : Metadata) (gBright u : ℝ)
    (tbl : List PzRow) (draws : ℕ → ℕ × Bool × ℝ) (fuel : ℕ)
    (distmod : ℝ → ℝ) : AugResult :=
  if md.galactic then
    .ok { md with
          redshift := 0
          host_specz := 0
          host_photoz := 0
          host_photoz_error := 0
          augment_brightness := some (0.5 + 0.5 * gBright) }
  else
    match aug_redshift_draw md.redshift u with
    | .error msg => .error msg
    | .ok aug_z =>
      match simulate_photoz tbl aug_z draws fuel with
      | .ok pz pzerr =>
        .ok { md with
              redshift := aug_z
              host_specz := aug_z
              host_photoz := pz
              host_photoz_error := pzerr
              distmod := some (distmod pz) }
      | .error msg => .error msg
      | .running => .running

/-- Embedding of `_augment_metadata`: copy the reference metadata (value
semantics make the copy implicit), run `_augment_redshift`, choose the new
`ddf` flag (`np.random.rand() > 0.8` when the reference is DDF, otherwise
always wide-field), and smear `mwebv` by `np.random.normal(1, 0.1)`. -/
noncomputable def augment_metadata (md : Metadata) (gBright u : ℝ)
    (tbl : List PzRow) (draws : ℕ → ℕ × Bool × ℝ) (fuel : ℕ)
    (distmod : ℝ → ℝ) (ddfU gMwebv : ℝ) : AugResult :=
  match augment_redshift md gBright u tbl draws fuel distmod with
  | .ok md1 =>
    let md2 : Metadata :=
      { md1 with ddf := if md.ddf then decide (0.8 < ddfU) else false }
    .ok { md2 with mwebv := md2.mwebv * (1 + 0.1 * gMwebv) }
  | r => r

/-- C9: for a galactic reference object, `_augment_metadata` returns
metadata whose redshift and photo-z fields are all zero and whose
`augment_brightness` is the Gaussian(0.5, 0.5) draw. -/
theorem augment_metadata_galactic_zeros (md : Metadata) (gBright u : ℝ)
    (tbl : List PzRow) (draws : ℕ → ℕ × Bool × ℝ) (fuel : ℕ)
    (distmod : ℝ → ℝ) (ddfU gMwebv : ℝ) (hgal : md.galactic = true) :
    ∃ md', augment_metadata md gBright u tbl draws fuel distmod ddfU gMwebv =
        .ok md' ∧
      md'.redshift = 0 ∧ md'.host_specz = 0 ∧ md'.host_photoz = 0 ∧
      md'.host_photoz_error = 0 ∧
      md'.augment_brightness = some (0.5 + 0.5 * gBright) := by
  rw [augment_metadata, augment_redshift, if_pos hgal]
  exact ⟨_, rfl, rfl, rfl, rfl, rfl, rfl⟩

/-- C9 witness: a concrete galactic object. -/
theorem augment_metadata_galactic_zeros_instance :
    ∃ md', augment_metadata
        { galactic := true
          ddf := true
          redshift := 0.3
          host_specz := 0.3
          host_photoz := 0.4
          host_photoz_error := 0.02
          mwebv := 0.1
          distmod := none
          augment_brightness := none }
        1 (1/2) [(1, 1, 1/10)] (fun _ => (0, true, 0)) 1 (fun z => z) 0 0 =
        .ok md' ∧
      md'.redshift = 0 ∧ md'.host_specz = 0 ∧ md'.host_photoz = 0 ∧
      md'.host_photoz_error = 0 ∧
      md'.augment_brightness = some (0.5 + 0.5 * 1) :=
  augment_metadata_galactic_zeros _ 1 (1/2) [(1, 1, 1/10)]
    (fun _ => (0, true, 0)) 1 (fun z => z) 0 0 rfl

lemma augment_metadata_nonpos_z0 (md : Metadata) (gBright u : ℝ)
    (tbl : List PzRow) (draws : ℕ → ℕ × Bool × ℝ) (fuel : ℕ)
    (distmod : ℝ → ℝ) (ddfU gMwebv : ℝ)
    (hgal : md.galactic = false) (hz : md.redshift ≤ 0) :
    augment_metadata md gBright u tbl draws fuel distmod ddfU gMwebv =
      .error "OverflowError: Range exceeds valid bounds" := by
  rw [augment_metadata, augment_redshift, if_neg (by simp [hgal])]
  have hdraw : aug_redshift_draw md.redshift u =
      .error "OverflowError: Range exceeds valid bounds" := by
    rw [aug_redshift_draw]
    exact if_neg (by push_neg; intro h; nlinarith)
  rw [hdraw]

/-- A concrete extragalactic reference object whose metadata redshift is
zero (a degenerate input for the log-uniform range). -/
def md_nonpos : Metadata :=
  { galactic := false
    ddf := false
    redshift := 0
    host_specz := 0
    host_photoz := 0.1
    host_photoz_error := 0.02
    mwebv := 0.1
    distmod := none
    augment_brightness := none }

/-- C1 counterexample: on a non-galactic reference object with `z0 = 0`,
`_augment_metadata` performs no explicit input rejection — the degenerate
log bounds flow into `np.random.uniform`, and the error that terminates
the call is the generic numpy range complaint
`OverflowError: Range exceeds valid bounds`, a message that describes
nothing about the violated redshift contract, not a descriptive
input-contract error raised by the augmentation code itself. -/
theorem augment_metadata_nonpos_z0_overflow_example :
    augment_metadata md_nonpos 0 (1/2) [(1, 1, 1/10)]
        (fun _ => (0, true, 0)) 1 (fun z => z) 0 0 =
      .error "OverflowError: Range exceeds valid bounds" :=
  augment_metadata_nonpos_z0 md_nonpos 0 (1/2) [(1, 1, 1/10)]
    (fun _ => (0, true, 0)) 1 (fun z => z) 0 0 rfl le_rfl

/-- C1 amended: for every non-galactic reference object with `z0 ≤ 0`,
`_augment_metadata` performs no explicit input validation: the
non-positive log-uniform bounds produce `-inf`/NaN from `np.log` (a
warning only) and the subsequent `np.random.uniform` raises the
incidental numpy error `OverflowError: Range exceeds valid bounds` — not
a descriptive rejection of the violated input contract.  (An explicit,
descriptive rejection is a requirement the spec places on
reimplementations, not a property of this code.) -/
theorem augment_metadata_nonpos_z0_overflow (md : Metadata)
    (gBright u : ℝ) (tbl : List PzRow) (draws : ℕ → ℕ × Bool × ℝ)
    (fuel : ℕ) (distmod : ℝ → ℝ) (ddfU gMwebv : ℝ)
    (hgal : md.galactic = false) (hz : md.redshift ≤ 0) :
    augment_metadata md gBright u tbl draws fuel distmod ddfU gMwebv =
      .error "OverflowError: Range exceeds valid bounds" :=
  augment_metadata_nonpos_z0 md gBright u tbl draws fuel distmod
    ddfU gMwebv hgal hz

/-- C1 witness: the amended statement at a concrete degenerate input. -/
theorem augment_metadata_nonpos_z0_overflow_instance :
    augment_metadata md_nonpos 1 (1/4) [(1, 1, 1/10)]
        (fun _ => (1, false, 0)) 2 (fun z => z) 0 0 =
      .error "OverflowError: Range exceeds valid bounds" :=
  augment_metadata_nonpos_z0_overflow md_nonpos 1 (1/4) [(1, 1, 1/10)]
    (fun _ => (1, false, 0)) 2 (fun z => z) 0 0 rfl le_rfl

lemma augment_metadata_ok_redshift {md : Metadata} {gBright u : ℝ}
    {tbl : List PzRow} {draws : ℕ → ℕ × Bool × ℝ} {fuel : ℕ}
    {distmod : ℝ → ℝ} {ddfU gMwebv : ℝ} {md' : Metadata}
    (h : augment_metadata md gBright u tbl draws fuel distmod ddfU gMwebv =
      .ok md') :
    ∃ md1, augment_redshift md gBright u tbl draws fuel distmod = .ok md1 ∧
      md'.redshift = md1.redshift := by
  rw [augment_metadata] at h
  cases haug : augment_redshift md gBright u tbl draws fuel distmod with
  | ok md1 =>
    rw [haug] at h
    dsimp only at h
    cases h
    exact ⟨md1, rfl, rfl⟩
  | error msg => rw [haug] at h; exact absurd h (by simp)
  | running => rw [haug] at h; exact absurd h (by simp)

lemma augment_redshift_ok_draw {md : Metadata} {gBright u : ℝ}
    {tbl : List PzRow} {draws : ℕ → ℕ × Bool × ℝ} {fuel : ℕ}
    {distmod : ℝ → ℝ} {md1 : Metadata} (hgal : md.galactic = false)
    (h : augment_redshift md gBright u tbl draws fuel distmod = .ok md1) :
    aug_redshift_draw md.redshift u = .ok md1.redshift := by
  rw [augment_redshift, if_neg (by simp [hgal])] at h
  cases hdraw : aug_redshift_draw md.redshift u with
  | error msg => rw [hdraw] at h; exact absurd h (by simp)
  | ok aug_z =>
    rw [hdraw] at h
    dsimp only at h
    cases hpz : simulate_photoz tbl aug_z draws fuel with
    | ok pz pzerr => rw [hpz] at h; cases h; rfl
    | error msg => rw [hpz] at h; exact absurd h (by simp)
    | running => rw [hpz] at h; exact absurd h (by simp)

lemma log_uniform_mem {a b u : ℝ} (ha : 0 < a) (hab : a ≤ b)
    (hu0 : 0 ≤ u) (hu1 : u ≤ 1) :
    a ≤ Real.exp (Real.log a + u * (Real.log b - Real.log a)) ∧
      Real.exp (Real.log a + u * (Real.log b - Real.log a)) ≤ b := by
  have hb : 0 < b := lt_of_lt_of_le ha hab
  have hlog : Real.log a ≤ Real.log b := Real.log_le_log ha hab
  constructor
  · calc a = Real.exp (Real.log a) := (Real.exp_log ha).symm
      _ ≤ _ := Real.exp_le_exp.mpr (by nlinarith)
  · calc Real.exp (Real.log a + u * (Real.log b - Real.log a)) ≤
        Real.exp (Real.log b) := Real.exp_le_exp.mpr (by nlinarith)
      _ = b := Real.exp_log hb

lemma aug_redshift_draw_bounds {z0 u r : ℝ} (hz : 0 < z0) (hu0 : 0 ≤ u)
    (hu1 : u ≤ 1) (h : aug_redshift_draw z0 u = .ok r) :
    0.95 * z0 ≤ r ∧ r ≤ min (5 * z0) (1.5 * (1 + z0) - 1) := by
  have hmin : (0 : ℝ) < 0.95 * z0 := by nlinarith
  have hmax : (0 : ℝ) < min (5 * z0) (1.5 * (1 + z0) - 1) :=
    lt_min (by nlinarith) (by nlinarith)
  have hab : 0.95 * z0 ≤ min (5 * z0) (1.5 * (1 + z0) - 1) :=
    le_min (by nlinarith) (by nlinarith)
  simp only [aug_redshift_draw] at h
  rw [if_pos ⟨hmin, hmax⟩] at h
  simp only [Except.ok.injEq] at h
  rw [← h]
  exact log_uniform_mem hmin hab hu0 hu1

/-- C3: for an extragalactic reference object with `z0 > 0`, whenever
`_augment_metadata` returns, the returned redshift lies in the closed
interval `[0.95 * z0, min(5 * z0, 1.5 * (1 + z0) - 1)]`, for every value
of the uniform draw `u ∈ [0, 1]`. -/
theorem augment_redshift_bounds (md : Metadata) (gBright u : ℝ)
    (tbl : List PzRow) (draws : ℕ → ℕ × Bool × ℝ) (fuel : ℕ)
    (distmod : ℝ → ℝ) (ddfU gMwebv : ℝ) (md' : Metadata)
    (hgal : md.galactic = false) (hz : 0 < md.redshift)
    (hu0 : 0 ≤ u) (hu1 : u ≤ 1)
    (h : augment_metadata md gBright u tbl draws fuel distmod ddfU gMwebv =
      .ok md') :
    0.95 * md.redshift ≤ md'.redshift ∧
      md'.redshift ≤ min (5 * md.redshift) (1.5 * (1 + md.redshift) - 1) := by
  obtain ⟨md1, haug, hred⟩ := augment_metadata_ok_redshift h
  have hdraw := augment_redshift_ok_draw hgal haug
  rw [hred]
  exact aug_redshift_draw_bounds hz hu0 hu1 hdraw

/-- A concrete extragalactic reference object with `z0 = 1`. -/
def md_extragal : Metadata :=
  { galactic := false
    ddf := false
    redshift := 1
    host_specz := 1
    host_photoz := 1.1
    host_photoz_error := 0.05
    mwebv := 0.2
    distmod := none
    augment_brightness := none }

/-- C3 witness: a concrete extragalactic run (with `u = 0`) that returns,
whose returned redshift obeys both analytic bounds. -/
theorem augment_redshift_bounds_instance :
    ∃ md', augment_metadata md_extragal 0 0 [(1, 1, 1/10)]
        (fun _ => (0, true, 0)) 1 (fun z => z) 0 0 = .ok md' ∧
      0.95 * md_extragal.redshift ≤ md'.redshift ∧
      md'.redshift ≤ min (5 * md_extragal.redshift)
        (1.5 * (1 + md_extragal.redshift) - 1) := by
  have h1 : (0 : ℝ) < 0.95 * md_extragal.redshift := by
    norm_num [md_extragal]
  have h2 : (0 : ℝ) < min (5 * md_extragal.redshift)
      (1.5 * (1 + md_extragal.redshift) - 1) := by
    norm_num [md_extragal, lt_min_iff]
  set R : ℝ := Real.exp (Real.log (0.95 * md_extragal.redshift) + 0 *
    (Real.log (min (5 * md_extragal.redshift)
      (1.5 * (1 + md_extragal.redshift) - 1)) -
     Real.log (0.95 * md_extragal.redshift))) with hR
  have hRpos : 0 < R := by rw [hR]; exact Real.exp_pos _
  have hdraw : aug_redshift_draw md_extragal.redshift 0 = .ok R := by
    rw [hR]
    simp only [aug_redshift_draw]
    rw [if_pos ⟨h1, h2⟩]
  have hpz : simulate_photoz [(1, 1, 1/10)] R (fun _ => (0, true, 0)) 1 =
      .ok R (1/10) := by
    rw [simulate_photoz, if_neg (by simp), simulate_photoz_go]
    show (if R + ((1 : ℝ) - 1) * 1 < 0 then
        simulate_photoz_go [(1, 1, 1/10)] R (fun _ => (0, true, 0)) 0 1
      else .ok (R + (1 - 1) * 1) (1/10 * (1 + 0.05 * 0))) = .ok R (1/10)
    rw [if_neg (by push_neg; nlinarith)]
    norm_num
  have hex : ∃ md', augment_metadata md_extragal 0 0 [(1, 1, 1/10)]
      (fun _ => (0, true, 0)) 1 (fun z => z) 0 0 = .ok md' := by
    rw [augment_metadata, augment_redshift, if_neg (by simp [md_extragal]),
      hdraw]
    dsimp only
    rw [hpz]
    exact ⟨_, rfl⟩
  obtain ⟨md', heq⟩ := hex
  exact ⟨md', heq, augment_redshift_bounds md_extragal 0 0 [(1, 1, 1/10)]
    (fun _ => (0, true, 0)) 1 (fun z => z) 0 0 md' rfl
    (by norm_num [md_extragal]) le_rfl zero_le_one heq⟩

/-- The Python `int()` conversion applied to a float: truncation toward
zero. -/
noncomputable def pyInt (x : ℝ) : ℤ := if 0 ≤ x then ⌊x⌋ else ⌈x⌉

/-- The WFD mixture-component draw `np.random.choice(3, p=[0.05, 0.4,
0.55])` of `_choose_target_observation_count`, written as the inverse CDF
of the categorical distribution applied to a uniform draw `u ∈ [0, 1)`. -/
noncomputable def wfd_gauss_choice (u : ℝ) : ℕ :=
  if u < 0.05 then 0 else if u < 0.45 then 1 else 2

/-- The `mu` selected by the `if gauss_choice == 0 / 1 / 2` chain. -/
noncomputable def wfd_mu (gauss_choice : ℕ) : ℝ :=
  if gauss_choice = 0 then 95 else if gauss_choice = 1 then 115 else 138

/-- The `sigma` selected by the `if gauss_choice == 0 / 1 / 2` chain. -/
noncomputable def wfd_sigma (gauss_choice : ℕ) : ℝ :=
  if gauss_choice = 0 then 20 else if gauss_choice = 1 then 8 else 8

/-- Embedding of `_choose_target_observation_count`.  `gDeep` and `g` are
the standard-normal draws behind `np.random.normal(330, 30)` and
`np.random.normal(mu, sigma)`; `np.clip(x, 50, None)` is `max 50 x`. -/
noncomputable def choose_target_observation_count (md : Metadata)
    (gDeep u g : ℝ) : ℤ :=
  if md.ddf then pyInt (330 + 30 * gDeep)
  else pyInt (max 50
    (wfd_mu (wfd_gauss_choice u) + wfd_sigma (wfd_gauss_choice u) * g))

/-- C8: for wide-field metadata the chosen epoch count is always at least
50 (the clip has a floor of 50), and it has no upper clip: every integer
bound is exceeded by some Gaussian draw. -/
theorem choose_target_observation_count_wfd_floor (md : Metadata)
    (gDeep u g : ℝ) (hwfd : md.ddf = false) :
    50 ≤ choose_target_observation_count md gDeep u g ∧
      ∀ B : ℤ, ∃ g', B ≤ choose_target_observation_count md gDeep u g' := by
  have key : ∀ g' : ℝ, choose_target_observation_count md gDeep u g' =
      ⌊max 50 (wfd_mu (wfd_gauss_choice u) +
        wfd_sigma (wfd_gauss_choice u) * g')⌋ := by
    intro g'
    rw [choose_target_observation_count, if_neg (by simp [hwfd]), pyInt,
      if_pos (le_trans (by norm_num) (le_max_left 50 _))]
  constructor
  · rw [key g]
    exact Int.le_floor.mpr (by push_cast; exact le_max_left 50 _)
  · intro B
    have hsig : (0 : ℝ) < wfd_sigma (wfd_gauss_choice u) := by
      rw [wfd_sigma]; split_ifs <;> norm_num
    refine ⟨((B : ℝ) - wfd_mu (wfd_gauss_choice u)) /
      wfd_sigma (wfd_gauss_choice u), ?_⟩
    rw [key]
    have harg : wfd_mu (wfd_gauss_choice u) +
        wfd_sigma (wfd_gauss_choice u) *
          (((B : ℝ) - wfd_mu (wfd_gauss_choice u)) /
            wfd_sigma (wfd_gauss_choice u)) = (B : ℝ) := by
      field_simp
    rw [harg]
    exact Int.le_floor.mpr (le_max_right 50 _)

/-- C8 witness: a concrete wide-field object and concrete draws. -/
theorem choose_target_observation_count_wfd_floor_instance :
    50 ≤ choose_target_observation_count md_extragal 0 (1/2) 0 :=
  (choose_target_observation_count_wfd_floor md_extragal 0 (1/2) 0 rfl).1

/-- The DDF `band_noises` table of
`_simulate_light_curve_uncertainties`. -/
noncomputable def ddf_band_noises : List (String × ℝ × ℝ) :=
  [("lsstu", 0.68, 0.26), ("lsstg", 0.25, 0.50), ("lsstr", 0.16, 0.36),
   ("lssti", 0.53, 0.27), ("lsstz", 0.88, 0.22), ("lssty", 1.76, 0.23)]

/-- The WFD `band_noises` table of
`_simulate_light_curve_uncertainties`. -/
noncomputable def wfd_band_noises : List (String × ℝ × ℝ) :=
  [("lsstu", 2.34, 0.43), ("lsstg", 0.94, 0.41), ("lsstr", 1.30, 0.41),
   ("lssti", 1.82, 0.42), ("lsstz", 2.56, 0.36), ("lssty", 3.33, 0.37)]

/-- The `band_noises` variant selected by the `ddf` flag of the
augmented metadata. -/
noncomputable def band_noises (ddf : Bool) : List (String × ℝ × ℝ) :=
  if ddf then ddf_band_noises else wfd_band_noises

/-- One row of the noise injection: look up the lognormal parameters of
the band (an unknown band is the `KeyError` of the `band_noises` lookup,
modelled as `none`), draw the amplitude `exp(mu + sigma * g)`
(`np.random.lognormal(mu, sigma)`), draw the additive term
`add_std * h` (`np.random.normal(0, add_std)`), add it to `flux`, and
combine the amplitude with `flux_error` in quadrature. -/
noncomputable def noise_row (bn : List (String × ℝ × ℝ)) (r : Obs)
    (g h : ℝ) : Option Obs :=
  match bn.lookup r.band with
  | none => none
  | some (mu, sigma) =>
    let add_std := Real.exp (mu + sigma * g)
    some { r with
           flux := r.flux + add_std * h
           flux_error := Real.sqrt (r.flux_error ^ 2 + add_std ^ 2) }

/-- All rows of the noise injection; `g k` and `h k` are the independent
lognormal and Gaussian draws of row `k`. -/
noncomputable def noise_rows (bn : List (String × ℝ × ℝ)) (g h : ℕ → ℝ) :
    List Obs → ℕ → Option (List Obs)
  | [], _ => some []
  | r :: rs, k =>
    match noise_row bn r (g k) (h k), noise_rows bn g h rs (k + 1) with
    | some r', some rs' => some (r' :: rs')
    | _, _ => none

/-- Embedding of `_simulate_light_curve_uncertainties` at the level of
table contents (the `.copy()` is expressed at the store level below):
an empty table is returned as is; otherwise every row gets noise. -/
noncomputable def simulate_light_curve_uncertainties (rows : List Obs)
    (ddf : Bool) (g h : ℕ → ℝ) : Option (List Obs) :=
  if rows.isEmpty then some rows
  else noise_rows (band_noises ddf) g h rows 0

/-- A store of observation tables: `pandas.DataFrame` objects are mutable
and aliasable, so table-valued arguments are references (`ℕ`) into a
store; `next` is the next fresh reference. -/
structure Store where
  tables : ℕ → List Obs
  next : ℕ

/-- Store-level embedding of `_simulate_light_curve_uncertainties`: the
function first copies its argument into a fresh table
(`observations = observations.copy()`) and writes only to the copy; the
reference to the copy (or the propagated `KeyError`) is returned together
with the new store. -/
noncomputable def simulate_light_curve_uncertainties_st (s : Store)
    (r : ℕ) (ddf : Bool) (g h : ℕ → ℝ) : Except String ℕ × Store :=
  let contents := s.tables r
  let rcopy := s.next
  let s1 : Store := ⟨Function.update s.tables rcopy contents, s.next + 1⟩
  if contents.isEmpty then (.ok rcopy, s1)
  else
    match noise_rows (band_noises ddf) g h contents 0 with
    | none => (.error "KeyError", s1)
    | some rows' =>
      (.ok rcopy, ⟨Function.update s1.tables rcopy rows', s1.next⟩)

/-- C6: the noise injector never mutates the caller's table: the caller's
reference holds the same contents after the call, any returned reference
is a fresh one, and on an empty input the contents of the returned table
equal the contents of the input (identity no-op). -/
theorem inject_noise_pure (s : Store) (r : ℕ) (ddf : Bool) (g h : ℕ → ℝ)
    (hr : r < s.next) :
    (simulate_light_curve_uncertainties_st s r ddf g h).2.tables r =
        s.tables r ∧
      (∀ q, (simulate_light_curve_uncertainties_st s r ddf g h).1 = .ok q →
        q ≠ r) ∧
      (s.tables r = [] →
        (simulate_light_curve_uncertainties_st s r ddf g h).1 =
            .ok s.next ∧
          (simulate_light_curve_uncertainties_st s r ddf g h).2.tables
            s.next = s.tables r) := by
  have hne : r ≠ s.next := Nat.ne_of_lt hr
  simp only [simulate_light_curve_uncertainties_st]
  by_cases he : (s.tables r).isEmpty
  · rw [if_pos he]
    refine ⟨Function.update_noteq hne _ _, ?_, ?_⟩
    · intro q hq
      cases hq
      exact hne.symm
    · intro _
      exact ⟨rfl, Function.update_same _ _ _⟩
  · rw [if_neg he]
    cases hn : noise_rows (band_noises ddf) g h (s.tables r) 0 with
    | none =>
      refine ⟨Function.update_noteq hne _ _, ?_, ?_⟩
      · intro q hq
        exact absurd hq (by simp)
      · intro hemp
        exact absurd (by rw [hemp]; rfl) he
    | some rows' =>
      refine ⟨?_, ?_, ?_⟩
      · show (Function.update (Function.update s.tables s.next
          (s.tables r)) s.next rows') r = s.tables r
        rw [Function.update_noteq hne, Function.update_noteq hne]
      · intro q hq
        cases hq
        exact hne.symm
      · intro hemp
        exact absurd (by rw [hemp]; rfl) he

/-- A concrete store holding only empty tables, with one allocated
reference. -/
def store0 : Store := ⟨fun _ => [], 1⟩

/-- C6 witness: on the empty table, the caller's table is unchanged and a
fresh table with the same (empty) contents is returned. -/
theorem inject_noise_pure_instance :
    (simulate_light_curve_uncertainties_st store0 0 true (fun _ => 0)
        (fun _ => 0)).2.tables 0 = store0.tables 0 ∧
      (simulate_light_curve_uncertainties_st store0 0 true (fun _ => 0)
        (fun _ => 0)).1 = .ok store0.next :=
  ⟨(inject_noise_pure store0 0 true (fun _ => 0) (fun _ => 0)
      Nat.zero_lt_one).1,
   ((inject_noise_pure store0 0 true (fun _ => 0) (fun _ => 0)
      Nat.zero_lt_one).2.2 rfl).1⟩

lemma noise_row_flux_error_le {bn : List (String × ℝ × ℝ)} {r r' : Obs}
    {g h : ℝ} (hrow : noise_row bn r g h = some r') :
    r.flux_error ≤ r'.flux_error := by
  rw [noise_row] at hrow
  cases hlk : bn.lookup r.band with
  | none => rw [hlk] at hrow; exact absurd hrow (by simp)
  | some p =>
    obtain ⟨mu, sigma⟩ := p
    rw [hlk] at hrow
    dsimp only at hrow
    cases hrow
    calc r.flux_error ≤ |r.flux_error| := le_abs_self _
      _ = Real.sqrt (r.flux_error ^ 2) := (Real.sqrt_sq_eq_abs _).symm
      _ ≤ Real.sqrt (r.flux_error ^ 2 + Real.exp (mu + sigma * g) ^ 2) :=
          Real.sqrt_le_sqrt
            (by nlinarith [sq_nonneg (Real.exp (mu + sigma * g))])

lemma noise_rows_flux_error_le (bn : List (String × ℝ × ℝ)) (g h : ℕ → ℝ) :
    ∀ (rows : List Obs) (k : ℕ) (rows' : List Obs),
      noise_rows bn g h rows k = some rows' →
      ∀ (i : ℕ) (hi : i < rows.length) (hi' : i < rows'.length),
        (rows.get ⟨i, hi⟩).flux_error ≤ (rows'.get ⟨i, hi'⟩).flux_error := by
  intro rows
  induction rows with
  | nil => intro k rows' hres i hi hi'; simp at hi
  | cons r rs ih =>
    intro k rows' hres i hi hi'
    rw [noise_rows] at hres
    cases hrow : noise_row bn r (g k) (h k) with
    | none => rw [hrow] at hres; exact absurd hres (by simp)
    | some r1 =>
      rw [hrow] at hres
      cases hrest : noise_rows bn g h rs (k + 1) with
      | none => rw [hrest] at hres; exact absurd hres (by simp)
      | some rs1 =>
        rw [hrest] at hres
        dsimp only at hres
        cases hres
        cases i with
        | zero => exact noise_row_flux_error_le hrow
        | succ n =>
          exact ih (k + 1) rs1 hrest n (Nat.lt_of_succ_lt_succ hi)
            (Nat.lt_of_succ_lt_succ hi')

/-- C7: on a non-empty table, every row of the table returned by the
noise injector has a flux error at least the flux error of the
corresponding input row (`sqrt(old_error^2 + add_std^2) >= old_error`), for every
draw. -/
theorem inject_noise_flux_error_monotone (ddf : Bool)
    (rows rows' : List Obs) (g h : ℕ → ℝ) (hrows : rows ≠ [])
    (hres : simulate_light_curve_uncertainties rows ddf g h = some rows')
    (i : ℕ) (hi : i < rows.length) (hi' : i < rows'.length) :
    (rows.get ⟨i, hi⟩).flux_error ≤ (rows'.get ⟨i, hi'⟩).flux_error := by
  rw [simulate_light_curve_uncertainties,
    if_neg (by simpa [List.isEmpty_iff] using hrows)] at hres
  exact noise_rows_flux_error_le (band_noises ddf) g h rows 0 rows' hres
    i hi hi'

/-- A concrete observation row in the `lsstu` band. -/
def obsU : Obs := { band := "lsstu", flux := 0, flux_error := 1,
                    detected := none }

/-- The row `obsU` after noise injection with both draws at zero. -/
noncomputable def obsU' : Obs :=
  { band := "lsstu"
    flux := 0 + Real.exp (0.68 + 0.26 * 0) * 0
    flux_error := Real.sqrt ((1 : ℝ) ^ 2 + Real.exp (0.68 + 0.26 * 0) ^ 2)
    detected := none }

/-- C7 witness: the concrete one-row run, with the returned flux error
dominating the input flux error. -/
theorem inject_noise_flux_error_monotone_instance :
    simulate_light_curve_uncertainties [obsU] true (fun _ => 0)
        (fun _ => 0) = some [obsU'] ∧
      ([obsU].get ⟨0, Nat.zero_lt_one⟩).flux_error ≤
        ([obsU'].get ⟨0, Nat.zero_lt_one⟩).flux_error :=
  ⟨rfl, inject_noise_flux_error_monotone true [obsU] [obsU'] (fun _ => 0)
    (fun _ => 0) (by simp) rfl 0 Nat.zero_lt_one Nat.zero_lt_one⟩

/-- The error function of `scipy.special.erf`:
`erf(x) = 2/sqrt(pi) * ∫ 0..x, exp(-t^2)`. -/
noncomputable def erf (x : ℝ) : ℝ :=
  2 / Real.sqrt Real.pi * ∫ t in (0 : ℝ)..x, Real.exp (-t ^ 2)

/-- The per-row detection probability of `_simulate_detection`:
`(erf((s2n - 5.5) / 2) + 1) / 2`. -/
noncomputable def prob_detected (s2n : ℝ) : ℝ :=
  ( erf ((s2n - 5.5) / 2) + 1) / 2

/-- Set the `detected` flag of each row: the uniform draw `u k` of row
`k` is compared to its detection probability for signal-to-noise
`|flux| / flux_error` (`np.random.rand(len(s2n)) < prob_detected`). -/
noncomputable def set_detected (u : ℕ → ℝ) : List Obs → ℕ → List Obs
  | [], _ => []
  | r :: rs, k =>
    let flag : Bool := decide (u k < prob_detected (|r.flux| / r.flux_error))
    { r with detected := some flag } :: set_detected u rs (k + 1)

/-- The sum `np.sum` takes of the `detected` column: the number of rows
whose `detected` flag is set to true. -/
noncomputable def detected_count (rows : List Obs) : ℕ :=
  List.countP (fun r => r.detected == some true) rows

/-- Embedding of `_simulate_detection` at the level of table contents:
the flagged rows, and `pass_detection`, true iff at least 2 rows are
flagged detected. -/
noncomputable def simulate_detection (rows : List Obs) (u : ℕ → ℝ) :
    List Obs × Bool :=
  let rows' := set_detected u rows 0
  (rows', decide (2 ≤ detected_count rows'))

/-- Store-level embedding of `_simulate_detection`: the `detected` column
is written directly into the table object passed in
(the assignment to the `detected` column, no copy), no fresh table is
allocated,
and the same reference is returned together with `pass_detection`. -/
noncomputable def simulate_detection_st (s : Store) (r : ℕ) (u : ℕ → ℝ) :
    (ℕ × Bool) × Store :=
  let rows' := set_detected u (s.tables r) 0
  ((r, decide (2 ≤ detected_count rows')),
    ⟨Function.update s.tables r rows', s.next⟩)

lemma set_detected_length (u : ℕ → ℝ) :
    ∀ (rows : List Obs) (k : ℕ),
      (set_detected u rows k).length = rows.length := by
  intro rows
  induction rows with
  | nil => intro k; rfl
  | cons r rs ih =>
    intro k
    simp only [set_detected, List.length_cons, ih]

/-- C5: `pass_detection` is true iff at least two rows are flagged
detected; in particular for a table with fewer than two rows it is false
for every draw. -/
theorem simulate_detection_pass_iff (rows : List Obs) (u : ℕ → ℝ) :
    ((simulate_detection rows u).2 = true ↔
      2 ≤ detected_count (simulate_detection rows u).1) ∧
    (rows.length < 2 → (simulate_detection rows u).2 = false) := by
  constructor
  · exact decide_eq_true_iff
  · intro hlen
    have hcount : detected_count (set_detected u rows 0) ≤ rows.length := by
      rw [detected_count]
      calc List.countP (fun r => r.detected == some true)
            (set_detected u rows 0) ≤ (set_detected u rows 0).length :=
          List.countP_le_length _
        _ = rows.length := set_detected_length u rows 0
    show decide (2 ≤ detected_count (set_detected u rows 0)) = false
    rw [decide_eq_false_iff_not]
    omega

/-- C5 witness: a one-row table never passes detection. -/
theorem simulate_detection_pass_iff_instance :
    (simulate_detection [obsU] (fun _ => 1/2)).2 = false :=
  (simulate_detection_pass_iff [obsU] (fun _ => 1/2)).2 (by simp)

/-- C10: `_simulate_detection` mutates its argument in place: the
returned reference is the very reference passed in, the contents of that
table
now carry the `detected` column, no fresh table was allocated, and every
other table is untouched. -/
theorem simulate_detection_in_place (s : Store) (r : ℕ) (u : ℕ → ℝ) :
    (simulate_detection_st s r u).1.1 = r ∧
    (simulate_detection_st s r u).2.tables r =
      set_detected u (s.tables r) 0 ∧
    (simulate_detection_st s r u).2.next = s.next ∧
    ∀ q, q ≠ r → (simulate_detection_st s r u).2.tables q = s.tables q := by
  refine ⟨rfl, Function.update_same _ _ _, rfl, ?_⟩
  intro q hq
  exact Function.update_noteq hq _ _

/-- C10 witness: the concrete store, with an untouched second table. -/
theorem simulate_detection_in_place_instance :
    (simulate_detection_st store0 0 (fun _ => 1/2)).1.1 = 0 ∧
      (simulate_detection_st store0 0 (fun _ => 1/2)).2.tables 1 =
        store0.tables 1 :=
  ⟨(simulate_detection_in_place store0 0 (fun _ => 1/2)).1,
   (simulate_detection_in_place store0 0 (fun _ => 1/2)).2.2.2 1
     (by norm_num)⟩
